import Mathlib

/-!
Verification development for the yt-chill core: a shallow embedding of
`src/core/youtube.rs` (search-result parsing and the cached search
operations) and of the storage layer (`src/storage/cache.rs`,
`src/storage/history.rs`, `src/storage/subscriptions.rs`), together with
theorems settling the specification claims about them.

External library functions (the HTTP client, the regex-based extractor,
SHA-256 hashing, URL encoding and HTML-entity decoding from the
`reqwest`, `regex`, `sha2`, `urlencoding` and `html_escape` crates) are
modelled as oracle parameters of an `Env` record: no claim depends on
their internals, only on how the repository's own code composes them.
Machine integers (`i64` unix timestamps, `u64` ttl) are modelled as
`Int`/`Nat`; the values involved (seconds, list lengths) are far from
the overflow range.
-/

namespace YtChill

/-- Model of `serde_json::Value`: JSON trees as parsed by serde.
Object keys are unique in a parsed `serde_json::Map`, so association-list
lookup of the first matching key is faithful. -/
inductive Json where
  | null : Json
  | bool (b : Bool) : Json
  | num (n : Int) : Json
  | str (s : String) : Json
  | arr (elems : List Json) : Json
  | obj (fields : List (String × Json)) : Json

/-- Model of `serde_json::Value::get` with a string index: field lookup on objects,
`None` on any other variant. -/
def Json.get : Json → String → Option Json
  | .obj fields, k => fields.lookup k
  | _, _ => none

/-- Model of `serde_json::Value::get` with a `usize` index: element lookup on arrays,
`None` on any other variant. -/
def Json.getIdx : Json → Nat → Option Json
  | .arr elems, i => elems.get? i
  | _, _ => none

/-- Model of `serde_json::Value::as_str`. -/
def Json.asStr : Json → Option String
  | .str s => some s
  | _ => none

/-- Model of `serde_json::Value::as_array`. -/
def Json.asArr : Json → Option (List Json)
  | .arr elems => some elems
  | _ => none

/-- From `types.rs`: a video result from YouTube search or feed. -/
structure Video where
  id : String
  title : String
  author : String
  duration : String
  views : String
  published : String
  thumbnail : String
deriving DecidableEq, Repr

/-- From `youtube.rs`: channel info for subscriptions. -/
structure ChannelInfo where
  name : String
  handle : String
deriving DecidableEq, Repr

/-- From `types.rs`: a subscription entry. -/
structure Subscription where
  name : String
  handle : String
deriving DecidableEq, Repr

/-- From `types.rs`: a video in watch history, with a unix-seconds timestamp. -/
structure HistoryEntry where
  video : Video
  timestamp : Int
deriving DecidableEq, Repr

/-- From `error.rs`: the `YtChillError` enum.  Payloads that in Rust are wrapped
library error values (`io::Error`, `reqwest::Error`, `serde_json::Error`)
are modelled by their display strings. -/
inductive YtChillError where
  | Network (msg : String)
  | YouTubeParse (msg : String)
  | MissingDependency (msg : String)
  | NoResults
  | NoSelection
  | InvalidConfig (msg : String)
  | File (msg : String)
  | Spawn (msg : String)
  | Http (msg : String)
  | Json (msg : String)
deriving DecidableEq, Repr

/-- The lazy Rust pipeline `iter().filter_map(f).take(n).collect()`:
walks the list, keeps `f`-successes, and stops as soon as `n` outputs
have been produced. -/
def takeFilterMap {α β : Type} (f : α → Option β) : List α → Nat → List β
  | _, 0 => []
  | [], _ + 1 => []
  | x :: xs, n + 1 =>
    match f x with
    | some b => b :: takeFilterMap f xs n
    | none => takeFilterMap f xs (n + 1)

/-- The fixed nested path both parsers walk to reach the flat item list:
`contents → twoColumnSearchResultsRenderer → primaryContents →
sectionListRenderer → contents → [0] → itemSectionRenderer → contents`,
read as an array. -/
def pathItems (data : Json) : Option (List Json) :=
  ((((((((data.get "contents").bind
    (fun c => c.get "twoColumnSearchResultsRenderer")).bind
    (fun r => r.get "primaryContents")).bind
    (fun p => p.get "sectionListRenderer")).bind
    (fun s => s.get "contents")).bind
    (fun c => c.getIdx 0)).bind
    (fun c => c.get "itemSectionRenderer")).bind
    (fun i => i.get "contents")).bind
    Json.asArr

/-- The per-item closure of `parse_search_results`: `dec` is the
`html_escape::decode_html_entities` oracle. -/
def itemToVideo (dec : String → String) (item : Json) : Option Video := do
  let v ← item.get "videoRenderer"
  let idJson ← v.get "videoId"
  let id ← idJson.asStr
  let title := (((((v.get "title").bind
      (fun t => t.get "runs")).bind
      (fun r => r.getIdx 0)).bind
      (fun r => r.get "text")).bind
      Json.asStr).map dec |>.getD ""
  let author := ((((v.get "longBylineText").bind
      (fun t => t.get "runs")).bind
      (fun r => r.getIdx 0)).bind
      (fun r => r.get "text")).bind
      Json.asStr |>.getD ""
  let duration := ((v.get "lengthText").bind
      (fun t => t.get "simpleText")).bind
      Json.asStr |>.getD "LIVE"
  let views := ((v.get "viewCountText").bind
      (fun t => t.get "simpleText")).bind
      Json.asStr |>.getD ""
  let published := ((v.get "publishedTimeText").bind
      (fun t => t.get "simpleText")).bind
      Json.asStr |>.getD ""
  let thumbnail := ((((v.get "thumbnail").bind
      (fun t => t.get "thumbnails")).bind
      Json.asArr).bind
      (fun t => t.getLast?)).bind
      (fun t => t.get "url") |>.bind Json.asStr |>.getD ""
  some ⟨id, title, author, duration, views, published, thumbnail⟩

/-- Model of `parse_search_results`: walk the nested path (empty result if any step
is missing), then run the lazy filter-map/take pipeline over the items. -/
def parse_search_results (dec : String → String) (data : Json) (limit : Nat) :
    List Video :=
  match pathItems data with
  | none => []
  | some items => takeFilterMap (itemToVideo dec) items limit

/-- The per-item closure of `parse_channel_results`. -/
def itemToChannel (dec : String → String) (item : Json) : Option ChannelInfo := do
  let c ← item.get "channelRenderer"
  let name := (((c.get "title").bind
      (fun t => t.get "simpleText")).bind
      Json.asStr).map dec |>.getD ""
  let handle := ((((c.get "subscriberCountText").bind
      (fun _ => c.get "channelId")).bind
      Json.asStr).map (fun id => "@" ++ id)).orElse
      (fun _ => (c.get "channelId").bind Json.asStr) |>.getD ""
  if name.isEmpty || handle.isEmpty then none
  else some ⟨name, handle⟩

/-- Model of `parse_channel_results`: same nested path, channel-shaped items. -/
def parse_channel_results (dec : String → String) (data : Json) (limit : Nat) :
    List ChannelInfo :=
  match pathItems data with
  | none => []
  | some items => takeFilterMap (itemToChannel dec) items limit

/-! ## Cache (`src/storage/cache.rs`)

The on-disk cache is one JSON file per key; we model the file system as a
total function from keys to optional stored entries.  `get_cached` first
deserializes the whole `CacheEntry<T>` (a failure — corrupt file or
wrong payload type — yields `None` without touching the file), then
checks expiry; an expired entry is removed as a side effect.  The store
after the call is returned explicitly. -/

/-- From `types.rs`: `CacheEntry<T>` — payload, unix-seconds write timestamp,
ttl in seconds. -/
structure CacheEntry (α : Type) where
  data : α
  timestamp : Int
  ttl : Nat
deriving DecidableEq, Repr

/-- A cache directory holding entries of raw stored type `β`. -/
def Store (β : Type) : Type := String → Option (CacheEntry β)

/-- From `cache.rs`: `DEFAULT_TTL` (one hour). -/
def DEFAULT_TTL : Nat := 3600

/-- Model of `get_cached::<T>`, with `decode` modelling deserialization of the
stored payload at type `T`.  Returns the read result and the store after
the call (the entry is deleted when it was readable but expired). -/
def get_cached_as {α β : Type} (decode : β → Option α) (now : Int)
    (store : Store β) (key : String) : Option α × Store β :=
  match store key with
  | none => (none, store)
  | some entry =>
    match decode entry.data with
    | none => (none, store)
    | some a =>
      if now - entry.timestamp > (entry.ttl : Int) then
        (none, fun k => if k = key then none else store k)
      else
        (some a, store)

/-- Model of `get_cached` at the stored type itself (deserialization of a value
that was serialized at the same type succeeds and is the identity). -/
def get_cached {α : Type} (now : Int) (store : Store α) (key : String) :
    Option α × Store α :=
  get_cached_as (fun a => some a) now store key

/-- Model of `set_cache`: overwrite the entry at `key` with the given payload,
stamped with the write time and the default ttl. -/
def set_cache {β : Type} (now : Int) (store : Store β) (key : String)
    (data : β) : Store β :=
  fun k => if k = key then some ⟨data, now, DEFAULT_TTL⟩ else store k

/-! ## Search service (`src/core/youtube.rs`)

The two cached operations store `Vec<Video>`; what is on disk at a key
may nevertheless be anything, so the store's raw payload type is a union
of the cacheable result types and deserialization at `Vec<Video>` is the
partial projection out of it. -/

/-- Raw payload of an on-disk cache entry. -/
inductive CachePayload where
  | videos (vs : List Video)
  | channels (cs : List ChannelInfo)
deriving DecidableEq, Repr

/-- Deserializing an on-disk payload as `Vec<Video>`. -/
def decodeVideos : CachePayload → Option (List Video)
  | .videos vs => some vs
  | _ => none

/-- The program's cache directory. -/
def CacheStore : Type := Store CachePayload

/-- Oracles for the external crates the search path composes:
`sha2` hashing (`get_cache_key`), `urlencoding::encode`, the
`reqwest`-based `fetch_youtube_html`, the regex-based
`extract_yt_initial_data`, and `html_escape::decode_html_entities`. -/
structure Env where
  hash : String → String
  urlencode : String → String
  fetch : String → Except YtChillError String
  extract : String → Except YtChillError Json
  decode : String → String

/-- Result of one search operation: the returned value, the cache store
after the call, and how many network fetches were issued. -/
structure SearchOutcome (α : Type) where
  result : Except YtChillError α
  cache : CacheStore
  fetches : Nat

/-- Model of `build_search_url`. -/
def build_search_url (env : Env) (query : String) (filter : String) : String :=
  let encoded_query := env.urlencode query
  let sp := match filter with
    | "video" => "EgIQAQ%3D%3D"
    | "channel" => "EgIQAg%3D%3D"
    | _ => ""
  "https://www.youtube.com/results?search_query=" ++ encoded_query ++ "&sp=" ++ sp

/-- The hashed cache key of `search_videos`: `sha256("video:<query>:<limit>")`. -/
def videosKey (env : Env) (query : String) (limit : Nat) : String :=
  env.hash ("video:" ++ query ++ ":" ++ toString limit)

/-- The hashed cache key of `fetch_channel_videos`:
`sha256("channel:<handle>:<limit>")`. -/
def channelKey (env : Env) (handle : String) (limit : Nat) : String :=
  env.hash ("channel:" ++ handle ++ ":" ++ toString limit)

/-- Model of `search_videos`: cache check first; on miss fetch → extract → parse,
`NoResults` on an empty parse, and a best-effort cache write-back of a
non-empty result. -/
def search_videos (env : Env) (now : Int) (cache : CacheStore)
    (query : String) (limit : Nat) : SearchOutcome (List Video) :=
  let key := videosKey env query limit
  match get_cached_as decodeVideos now cache key with
  | (some cached, cache') => ⟨.ok cached, cache', 0⟩
  | (none, cache') =>
    let url := build_search_url env query "video"
    match env.fetch url with
    | .error e => ⟨.error e, cache', 1⟩
    | .ok html =>
      match env.extract html with
      | .error e => ⟨.error e, cache', 1⟩
      | .ok data =>
        let results := parse_search_results env.decode data limit
        if results.isEmpty then ⟨.error .NoResults, cache', 1⟩
        else ⟨.ok results, set_cache now cache' key (.videos results), 1⟩

/-- Model of `search_channels`: fetch → extract → parse, `NoResults` on an empty
parse.  The function performs no cache read or write; the store is
threaded through unchanged. -/
def search_channels (env : Env) (now : Int) (cache : CacheStore)
    (query : String) (limit : Nat) : SearchOutcome (List ChannelInfo) :=
  let url := build_search_url env query "channel"
  match env.fetch url with
  | .error e => ⟨.error e, cache, 1⟩
  | .ok html =>
    match env.extract html with
    | .error e => ⟨.error e, cache, 1⟩
    | .ok data =>
      let results := parse_channel_results env.decode data limit
      if results.isEmpty then ⟨.error .NoResults, cache, 1⟩
      else ⟨.ok results, cache, 1⟩

/-- Model of `fetch_channel_videos`: cache check first; on miss fetch → extract →
parse (searching for `"<handle> "` with the video filter), an empty
result is a normal success and only non-empty results are cached. -/
def fetch_channel_videos (env : Env) (now : Int) (cache : CacheStore)
    (channel_handle : String) (limit : Nat) : SearchOutcome (List Video) :=
  let key := channelKey env channel_handle limit
  match get_cached_as decodeVideos now cache key with
  | (some cached, cache') => ⟨.ok cached, cache', 0⟩
  | (none, cache') =>
    let search_query := channel_handle ++ " "
    let url := build_search_url env search_query "video"
    match env.fetch url with
    | .error e => ⟨.error e, cache', 1⟩
    | .ok html =>
      match env.extract html with
      | .error e => ⟨.error e, cache', 1⟩
      | .ok data =>
        let results := parse_search_results env.decode data limit
        if results.isEmpty then ⟨.ok results, cache', 1⟩
        else ⟨.ok results, set_cache now cache' key (.videos results), 1⟩

/-! ## History (`src/storage/history.rs`) -/

/-- In-memory state of the `History` manager (the backing path plays no
role in `add`'s list manipulation). -/
structure History where
  entries : List HistoryEntry
  max_entries : Nat
deriving DecidableEq, Repr

/-- Model of `History::add`: drop entries with the added video's id, insert the
new entry at the front with the current timestamp, and trim to
`max_entries` when the list exceeds it. -/
def History.add (h : History) (video : Video) (now : Int) : History :=
  let entry : HistoryEntry := ⟨video, now⟩
  let kept := h.entries.filter (fun e => e.video.id != video.id)
  let inserted := entry :: kept
  let entries :=
    if inserted.length > h.max_entries then inserted.take h.max_entries
    else inserted
  ⟨entries, h.max_entries⟩

/-! ## Subscriptions (`src/storage/subscriptions.rs`)

`add_subscription` loads the store, drops records with the new handle,
pushes the new record at the end and saves; its list-level content is
the pure function below.  The file format functions are modelled at the
character level (`List Char` for the file content), since their whole
point is splitting on tab and newline characters. -/

/-- The list transformation inside `add_subscription`. -/
def add_subscription (subs : List Subscription) (s : Subscription) :
    List Subscription :=
  subs.filter (fun r => r.handle != s.handle) ++ [s]

/-- The list transformation inside `remove_subscription`. -/
def remove_subscription (subs : List Subscription) (handle : String) :
    List Subscription :=
  subs.filter (fun r => r.handle != handle)

/-- Model of `Vec::join("\n")` on the character level. -/
def joinNL : List (List Char) → List Char
  | [] => []
  | [l] => l
  | l :: ls => l ++ '\n' :: joinNL ls

/-- Model of `save_subscriptions`: one `name<TAB>handle` line per record, joined
with newlines; the resulting file content as a character list. -/
def save_subscriptions (subs : List Subscription) : List Char :=
  joinNL (subs.map (fun s => s.name.data ++ '\t' :: s.handle.data))

/-- Splitting on a separator character; always at least one (possibly
empty) segment, separators dropped. -/
def splitOnChar (c : Char) : List Char → List (List Char)
  | [] => [[]]
  | x :: xs =>
    if x = c then [] :: splitOnChar c xs
    else
      match splitOnChar c xs with
      | [] => [[x]]
      | y :: ys => (x :: y) :: ys

/-- Rust's per-line terminator handling: a carriage return is stripped
only when the line was terminated by `\n` (i.e. `\r\n`). -/
def stripCR (l : List Char) : List Char :=
  if l.getLast? = some '\r' then l.dropLast else l

/-- Model of `str::lines()`: split on `\n`; every segment that was `\n`-terminated
has a trailing `\r` stripped; a final empty segment (trailing newline or
empty input) yields no line. -/
def rustLines (content : List Char) : List (List Char) :=
  let parts := splitOnChar '\n' content
  match parts.reverse with
  | [] => []
  | last :: revInit =>
    let init := revInit.reverse.map stripCR
    if last = [] then init else init ++ [last]

/-- Model of `line.splitn(2, '\t')`: at most two pieces, split at the first tab. -/
def splitTab (line : List Char) : List (List Char) :=
  let a := line.takeWhile (fun ch => ch != '\t')
  let b := line.dropWhile (fun ch => ch != '\t')
  match b with
  | [] => [line]
  | _ :: rest => [a, rest]

/-- Model of `load_subscriptions` from file content: lines with exactly two
tab-separated fields become records, malformed lines are skipped. -/
def load_subscriptions (content : List Char) : List Subscription :=
  (rustLines content).filterMap (fun line =>
    match splitTab line with
    | [a, b] => some ⟨String.mk a, String.mk b⟩
    | _ => none)

/-! ## Theorems: cache validity and round-trip (claims C4, C5) -/

/-- C4: a cache entry stored at timestamp `t` with time-to-live `d` is
returned by a read at time `now` when `now - t ≤ d`, with the store
untouched; when `now - t > d` the read returns `none`, the entry's
backing file is deleted, and no other key is affected. -/
theorem c4_cache_expiry {α : Type} (store : Store α) (key : String)
    (e : CacheEntry α) (now : Int) (h : store key = some e) :
    (now - e.timestamp ≤ (e.ttl : Int) →
      get_cached now store key = (some e.data, store))
    ∧ (now - e.timestamp > (e.ttl : Int) →
      (get_cached now store key).1 = none
      ∧ (get_cached now store key).2 key = none
      ∧ ∀ k, k ≠ key → (get_cached now store key).2 k = store k) := by
  constructor
  · intro hle
    simp only [get_cached, get_cached_as, h]
    rw [if_neg (by omega)]
  · intro hgt
    simp only [get_cached, get_cached_as, h]
    rw [if_pos hgt]
    refine ⟨rfl, by simp, ?_⟩
    intro k hk
    simp [hk]

/-- Fixture store for the C4 witness. -/
def c4Store : Store Nat :=
  fun k => if k = "k" then some ⟨7, 0, 10⟩ else none

theorem c4_cache_expiry_witness :
    get_cached 5 c4Store "k" = (some 7, c4Store)
    ∧ (get_cached 100 c4Store "k").1 = none
    ∧ (get_cached 100 c4Store "k").2 "k" = none :=
  ⟨(c4_cache_expiry c4Store "k" ⟨7, 0, 10⟩ 5 rfl).1 (by decide),
   ((c4_cache_expiry c4Store "k" ⟨7, 0, 10⟩ 100 rfl).2 (by decide)).1,
   ((c4_cache_expiry c4Store "k" ⟨7, 0, 10⟩ 100 rfl).2 (by decide)).2.1⟩

/-- C5: `set_cache` immediately followed by `get_cached` at the same key
returns the stored value, for any payload type and value, as long as the
default ttl has not elapsed between the write time and the read time. -/
theorem c5_cache_roundtrip {α : Type} (store : Store α) (key : String)
    (v : α) (tw now : Int) (h : now - tw ≤ (DEFAULT_TTL : Int)) :
    (get_cached now (set_cache tw store key v) key).1 = some v := by
  have hk : set_cache tw store key v key = some ⟨v, tw, DEFAULT_TTL⟩ := by
    simp [set_cache]
  have hcond : ¬ (now - tw > ((DEFAULT_TTL : Nat) : Int)) := by
    simp only [DEFAULT_TTL] at h ⊢
    omega
  simp only [get_cached, get_cached_as, hk, if_neg hcond]

theorem c5_cache_roundtrip_witness :
    (get_cached 3600 (set_cache 0 (fun _ => none) "key" [(3 : Nat)]) "key").1
      = some [3] :=
  c5_cache_roundtrip (fun _ => none) "key" [3] 0 3600 (by decide)

/-! ## Theorems: the parser pipeline (claims C8, C6) -/

/-- The lazy `filter_map(f).take(n)` pipeline computes the same list as
filtering the whole input first and truncating afterwards. -/
theorem takeFilterMap_eq {α β : Type} (f : α → Option β) :
    ∀ (xs : List α) (n : Nat), takeFilterMap f xs n = (xs.filterMap f).take n := by
  intro xs
  induction xs with
  | nil => intro n; cases n <;> simp [takeFilterMap]
  | cons x xs ih =>
    intro n
    cases n with
    | zero => simp [takeFilterMap]
    | succ n =>
      cases hf : f x with
      | some b => simp [takeFilterMap, hf, List.filterMap_cons, ih]
      | none => simp [takeFilterMap, hf, List.filterMap_cons, ih]

/-- Modelled from the spec's words, for the refinement comparison of C8:
"first filtering the entire item list and then truncating". -/
def videosFilterThenTruncate (dec : String → String) (data : Json)
    (limit : Nat) : List Video :=
  ((((pathItems data).getD []).filterMap (itemToVideo dec))).take limit

/-- Modelled from the spec's words, for the refinement comparison of C8:
the channel-side filter-everything-then-truncate reference. -/
def channelsFilterThenTruncate (dec : String → String) (data : Json)
    (limit : Nat) : List ChannelInfo :=
  ((((pathItems data).getD []).filterMap (itemToChannel dec))).take limit

/-- C8: both parsers' lazy `filter_map(..).take(limit)` pipelines return
exactly the first `limit` elements of the fully filtered item list, so
truncation happens after filtering and only upstream item order
determines which items survive. -/
theorem c8_truncate_after_filter (dec : String → String) (data : Json)
    (limit : Nat) :
    parse_search_results dec data limit = videosFilterThenTruncate dec data limit
    ∧ parse_channel_results dec data limit
        = channelsFilterThenTruncate dec data limit := by
  constructor
  · cases hp : pathItems data <;>
      simp [parse_search_results, videosFilterThenTruncate, hp, takeFilterMap_eq]
  · cases hp : pathItems data <;>
      simp [parse_channel_results, channelsFilterThenTruncate, hp, takeFilterMap_eq]

/-- C6: per-item field fallbacks of the video parser, and path degradation:
a video-shaped item with an identifier but no `lengthText` field parses
with duration `"LIVE"`; a video-shaped item without `videoId` is dropped;
a JSON value missing any step of the nested path parses to `[]`. -/
theorem c6_parser_fallbacks :
    (∀ (dec : String → String) (item vr idJson : Json) (id : String),
      item.get "videoRenderer" = some vr →
      vr.get "videoId" = some idJson →
      idJson.asStr = some id →
      vr.get "lengthText" = none →
      ∃ v, itemToVideo dec item = some v ∧ v.duration = "LIVE" ∧ v.id = id)
    ∧ (∀ (dec : String → String) (item vr : Json),
      item.get "videoRenderer" = some vr →
      vr.get "videoId" = none →
      itemToVideo dec item = none)
    ∧ (∀ (dec : String → String) (data : Json) (limit : Nat),
      pathItems data = none →
      parse_search_results dec data limit = []) := by
  refine ⟨?_, ?_, ?_⟩
  · intro dec item vr idJson id h1 h2 h3 h4
    simp [itemToVideo, h1, h2, h3, h4]
  · intro dec item vr h1 h2
    simp [itemToVideo, h1, h2]
  · intro dec data limit h
    simp [parse_search_results, h]

/-- Fixture item for the C6 witness: video renderer with an id and no
duration field. -/
def c6Item : Json :=
  Json.obj [("videoRenderer", Json.obj [("videoId", Json.str "abc")])]

/-- Fixture item for the C6 witness: video renderer without an id. -/
def c6ItemNoId : Json :=
  Json.obj [("videoRenderer", Json.obj [("title", Json.str "t")])]

theorem c6_parser_fallbacks_witness :
    (∃ v, itemToVideo (fun s => s) c6Item = some v
      ∧ v.duration = "LIVE" ∧ v.id = "abc")
    ∧ itemToVideo (fun s => s) c6ItemNoId = none
    ∧ parse_search_results (fun s => s) Json.null 5 = [] :=
  ⟨c6_parser_fallbacks.1 (fun s => s) c6Item
      (Json.obj [("videoId", Json.str "abc")]) (Json.str "abc") "abc"
      rfl rfl rfl rfl,
   c6_parser_fallbacks.2.1 (fun s => s) c6ItemNoId
      (Json.obj [("title", Json.str "t")]) rfl rfl,
   c6_parser_fallbacks.2.2 (fun s => s) Json.null 5 rfl⟩

/-! ## Theorems: history (claim C2) -/

/-- Fixture video with id "a". -/
def vidA : Video := ⟨"a", "", "", "", "", "", ""⟩

/-- Fixture video with id "b". -/
def vidB : Video := ⟨"b", "", "", "", "", "", ""⟩

/-- C2 counterexample: (i) starting from a state whose entries already
contain two entries with the same id "b", adding a video with id "a"
leaves the duplicate pair in place, so entries are not unique by id
after the add; (ii) with configured maximum 0 the truncation empties the
list, so the freshly added entry is not first (there is no first entry). -/
theorem c2_counterexample :
    ¬ (((History.add ⟨[⟨vidB, 0⟩, ⟨vidB, 0⟩], 10⟩ vidA 1).entries.map
        (fun e => e.video.id)).Nodup)
    ∧ (History.add ⟨[], 0⟩ vidA 1).entries = [] := by
  constructor
  · decide
  · decide

/-- C2 as amended: `History::add` removes the entries carrying the added
video's id, inserts the new timestamped entry at index 0 and truncates
to the configured maximum; consequently the resulting length is at most
the maximum, the only entry with the added id is the new one, uniqueness
of ids is preserved (it holds after the add whenever it held before),
and whenever the configured maximum is positive the new entry is first. -/
theorem c2_history_add_amended (h : History) (video : Video) (now : Int) :
    (History.add h video now).entries =
      (⟨video, now⟩ ::
        h.entries.filter (fun e => e.video.id != video.id)).take h.max_entries
    ∧ (History.add h video now).entries.length ≤ h.max_entries
    ∧ (∀ e ∈ (History.add h video now).entries,
        e.video.id = video.id → e = ⟨video, now⟩)
    ∧ ((h.entries.map (fun e => e.video.id)).Nodup →
        ((History.add h video now).entries.map (fun e => e.video.id)).Nodup)
    ∧ (0 < h.max_entries →
        (History.add h video now).entries.head? = some ⟨video, now⟩) := by
  have heq : (History.add h video now).entries =
      (⟨video, now⟩ ::
        h.entries.filter (fun e => e.video.id != video.id)).take h.max_entries := by
    simp only [History.add]
    split
    · rfl
    · next hle =>
      rw [List.take_of_length_le (by omega)]
  refine ⟨heq, ?_, ?_, ?_, ?_⟩
  · rw [heq]; exact List.length_take_le _ _
  · intro e he hid
    rw [heq] at he
    rcases List.mem_cons.mp (List.mem_of_mem_take he) with h1 | h1
    · exact h1
    · exfalso
      have := List.of_mem_filter h1
      simp only [bne_iff_ne, ne_eq] at this
      exact this hid
  · intro hnd
    rw [heq, List.map_take]
    refine List.Nodup.sublist (List.take_sublist _ _) ?_
    rw [List.map_cons, List.nodup_cons]
    constructor
    · intro hmem
      rcases List.mem_map.mp hmem with ⟨e, he, hid⟩
      have := List.of_mem_filter he
      simp only [bne_iff_ne, ne_eq] at this
      exact this hid
    · exact List.Nodup.sublist
        (List.Sublist.map _ (List.filter_sublist _)) hnd
  · intro hpos
    rw [heq]
    rcases Nat.exists_eq_add_of_lt hpos with ⟨m, hm⟩
    rw [hm]
    simp [List.take_succ_cons, Nat.add_comm]

theorem c2_history_add_amended_witness :
    (((History.add ⟨[⟨vidB, 0⟩], 10⟩ vidA 1).entries.map
        (fun e => e.video.id)).Nodup)
    ∧ (History.add ⟨[⟨vidB, 0⟩], 10⟩ vidA 1).entries.head? = some ⟨vidA, 1⟩ :=
  ⟨(c2_history_add_amended ⟨[⟨vidB, 0⟩], 10⟩ vidA 1).2.2.2.1 (by decide),
   (c2_history_add_amended ⟨[⟨vidB, 0⟩], 10⟩ vidA 1).2.2.2.2 (by decide)⟩

/-! ## Theorems: subscription upsert (claim C7) -/

/-- C7 counterexample: in a store that already holds two records with
the same handle "h", (i) an upsert of that handle removes both, so the
length shrinks from 2 to 1 instead of staying unchanged; (ii) an add of
a fresh handle "g" leaves the duplicated handle pair in place, so the
store does contain two records with the same handle after an add. -/
theorem c7_counterexample :
    (add_subscription [⟨"a", "h"⟩, ⟨"b", "h"⟩] ⟨"c", "h"⟩).length ≠
      ([⟨"a", "h"⟩, ⟨"b", "h"⟩] : List Subscription).length
    ∧ ¬ (((add_subscription [⟨"a", "h"⟩, ⟨"b", "h"⟩] ⟨"c", "g"⟩).map
        (fun r => r.handle)).Nodup) := by
  constructor
  · decide
  · decide

/-- In a store with pairwise-distinct handles, filtering out an existing
handle removes exactly one record. -/
theorem filter_handle_length (subs : List Subscription) (hd : String)
    (hnd : (subs.map (fun r => r.handle)).Nodup)
    (r₀ : Subscription) (hmem : r₀ ∈ subs) (hh : r₀.handle = hd) :
    (subs.filter (fun r => r.handle != hd)).length + 1 = subs.length := by
  induction subs with
  | nil => cases hmem
  | cons a tl ih =>
    rw [List.map_cons, List.nodup_cons] at hnd
    by_cases ha : a.handle = hd
    · have hfa : (a.handle != hd) = false := by simp [ha]
      have htl : tl.filter (fun r => r.handle != hd) = tl := by
        rw [List.filter_eq_self]
        intro x hx
        simp only [bne_iff_ne, ne_eq]
        intro hxh
        apply hnd.1
        rw [ha, ← hxh]
        exact List.mem_map_of_mem (fun r => r.handle) hx
      simp [List.filter_cons, hfa, htl]
    · have hfa : (a.handle != hd) = true := by simp [ha]
      have hr₀ : r₀ ∈ tl := by
        rcases List.mem_cons.mp hmem with h1 | h1
        · exact absurd (h1 ▸ hh) ha
        · exact h1
      have := ih hnd.2 hr₀
      simp [List.filter_cons, hfa]
      omega

/-- C7 as amended: provided the store's handles are pairwise distinct
(the store invariant), upserting a subscription whose handle already
occurs leaves the length unchanged; after any add the new record is
present, it is the only record with its handle, and handles are still
pairwise distinct. -/
theorem c7_upsert_amended (subs : List Subscription) (s : Subscription)
    (hnd : (subs.map (fun r => r.handle)).Nodup) :
    ((∃ r ∈ subs, r.handle = s.handle) →
        (add_subscription subs s).length = subs.length)
    ∧ s ∈ add_subscription subs s
    ∧ (∀ r ∈ add_subscription subs s, r.handle = s.handle → r = s)
    ∧ ((add_subscription subs s).map (fun r => r.handle)).Nodup := by
  refine ⟨?_, ?_, ?_, ?_⟩
  · rintro ⟨r₀, hmem, hh⟩
    have := filter_handle_length subs s.handle hnd r₀ hmem hh
    simp only [add_subscription, List.length_append, List.length_cons,
      List.length_nil]
    omega
  · simp [add_subscription]
  · intro r hr hh
    rcases List.mem_append.mp hr with h1 | h1
    · exfalso
      have := List.of_mem_filter h1
      simp only [bne_iff_ne, ne_eq] at this
      exact this hh
    · simpa using h1
  · simp only [add_subscription, List.map_append]
    refine List.Nodup.append ?_ (by simp) ?_
    · exact List.Nodup.sublist
        (List.Sublist.map _ (List.filter_sublist _)) hnd
    · intro x hx hxs
      simp only [List.map_cons, List.map_nil, List.mem_singleton] at hxs
      rcases List.mem_map.mp hx with ⟨r, hr, hrx⟩
      have := List.of_mem_filter hr
      simp only [bne_iff_ne, ne_eq] at this
      exact this (hrx.trans hxs)

theorem c7_upsert_amended_witness :
    (add_subscription [⟨"a", "h"⟩, ⟨"b", "g"⟩] ⟨"c", "h"⟩).length =
      ([⟨"a", "h"⟩, ⟨"b", "g"⟩] : List Subscription).length
    ∧ ((add_subscription [⟨"a", "h"⟩, ⟨"b", "g"⟩] ⟨"c", "h"⟩).map
        (fun r => r.handle)).Nodup :=
  ⟨(c7_upsert_amended [⟨"a", "h"⟩, ⟨"b", "g"⟩] ⟨"c", "h"⟩ (by decide)).1
      ⟨⟨"a", "h"⟩, by decide, rfl⟩,
   (c7_upsert_amended [⟨"a", "h"⟩, ⟨"b", "g"⟩] ⟨"c", "h"⟩ (by decide)).2.2.2⟩

/-! ## Theorems: search service (claims C9, C3, C1) -/

/-- A cache read that produced a value left the store untouched (only
expired reads mutate it, and those return `none`). -/
theorem get_cached_as_eq_of_fst_some {α β : Type} (decode : β → Option α)
    (now : Int) (store : Store β) (key : String) (a : α)
    (h : (get_cached_as decode now store key).1 = some a) :
    get_cached_as decode now store key = (some a, store) := by
  rcases hk : store key with _ | entry
  · simp [get_cached_as, hk] at h
  · rcases hd : decode entry.data with _ | b
    · simp [get_cached_as, hk, hd] at h
    · by_cases hexp : now - entry.timestamp > (entry.ttl : Int)
      · simp [get_cached_as, hk, hd, hexp] at h
      · have hb : b = a := by simpa [get_cached_as, hk, hd, hexp] using h
        simp [get_cached_as, hk, hd, hexp, hb]

/-- Truncating the pipeline to zero yields the empty list, whatever the
input. -/
theorem parse_search_results_zero (dec : String → String) (data : Json) :
    parse_search_results dec data 0 = [] := by
  rcases hp : pathItems data with _ | items
  · simp [parse_search_results, hp]
  · simp only [parse_search_results, hp]
    cases items <;> rfl

/-- C9: with `limit = 0` and no previously cached value under the
operation's key (such a value can never be written: only non-empty
results are cached and a non-empty result forces a positive limit in the
key), `search_videos` never succeeds — the pipeline truncates to the
empty list, so a successful fetch and extraction end in `NoResults`,
even when the fetched page contains video items. -/
theorem c9_limit_zero_no_success (env : Env) (now : Int) (cache : CacheStore)
    (query : String)
    (h : (get_cached_as decodeVideos now cache (videosKey env query 0)).1 = none) :
    ((search_videos env now cache query 0).result.isOk = false)
    ∧ (∀ html data,
        env.fetch (build_search_url env query "video") = .ok html →
        env.extract html = .ok data →
        (search_videos env now cache query 0).result = .error .NoResults)
    ∧ (∀ (dec : String → String) (data : Json),
        parse_search_results dec data 0 = []) := by
  rcases hpair : get_cached_as decodeVideos now cache (videosKey env query 0)
    with ⟨r, cache'⟩
  rw [hpair] at h
  simp only at h
  subst h
  refine ⟨?_, ?_, fun dec data => parse_search_results_zero dec data⟩
  · rcases hf : env.fetch (build_search_url env query "video") with e | html
    · simp [search_videos, hpair, hf, Except.isOk, Except.toBool]
    · rcases he : env.extract html with e | data
      · simp [search_videos, hpair, hf, he, Except.isOk, Except.toBool]
      · simp [search_videos, hpair, hf, he,
          parse_search_results_zero, Except.isOk, Except.toBool]
  · intro html data hf he
    simp [search_videos, hpair, hf, he, parse_search_results_zero]

/-- Fixture: a search-results blob whose item list holds one video item. -/
def sampleData : Json :=
  Json.obj [("contents", Json.obj [("twoColumnSearchResultsRenderer",
    Json.obj [("primaryContents", Json.obj [("sectionListRenderer",
      Json.obj [("contents", Json.arr [Json.obj [("itemSectionRenderer",
        Json.obj [("contents", Json.arr [Json.obj [("videoRenderer",
          Json.obj [("videoId", Json.str "vid1")])]])])]])])])])])]

/-- The video parsed out of `sampleData`. -/
def sampleVideo : Video := ⟨"vid1", "", "", "LIVE", "", "", ""⟩

/-- Environment fixture whose oracles are identities and whose network
returns `sampleData`. -/
def envSample : Env :=
  ⟨fun s => s, fun s => s, fun _ => .ok "page", fun _ => .ok sampleData,
   fun s => s⟩

/-- The empty cache directory. -/
def emptyCache : CacheStore := fun _ => none

theorem c9_limit_zero_no_success_witness :
    (search_videos envSample 0 emptyCache "q" 0).result = .error .NoResults :=
  (c9_limit_zero_no_success envSample 0 emptyCache "q" rfl).2.1
    "page" sampleData rfl rfl

/-- C3: when fetching and extraction succeed but parsing yields an empty
sequence, `search_videos` and `search_channels` fail with the dedicated
`NoResults` error — an error constructor distinct from `Network` and
`YouTubeParse` — while `fetch_channel_videos` returns a normal empty
success. -/
theorem c3_empty_results (env : Env) (now : Int) (cache : CacheStore)
    (query handle : String) (limit : Nat) :
    (∀ html data,
      (get_cached_as decodeVideos now cache (videosKey env query limit)).1 = none →
      env.fetch (build_search_url env query "video") = .ok html →
      env.extract html = .ok data →
      parse_search_results env.decode data limit = [] →
      (search_videos env now cache query limit).result = .error .NoResults)
    ∧ (∀ html data,
      env.fetch (build_search_url env query "channel") = .ok html →
      env.extract html = .ok data →
      parse_channel_results env.decode data limit = [] →
      (search_channels env now cache query limit).result = .error .NoResults)
    ∧ (∀ html data,
      (get_cached_as decodeVideos now cache (channelKey env handle limit)).1 = none →
      env.fetch (build_search_url env (handle ++ " ") "video") = .ok html →
      env.extract html = .ok data →
      parse_search_results env.decode data limit = [] →
      (fetch_channel_videos env now cache handle limit).result = .ok [])
    ∧ (∀ msg, (YtChillError.NoResults = YtChillError.Network msg) → False)
    ∧ (∀ msg, (YtChillError.NoResults = YtChillError.YouTubeParse msg) → False) := by
  refine ⟨?_, ?_, ?_, ?_, ?_⟩
  · intro html data h hf he hp
    rcases hpair : get_cached_as decodeVideos now cache (videosKey env query limit)
      with ⟨r, cache'⟩
    rw [hpair] at h
    simp only at h
    subst h
    simp [search_videos, hpair, hf, he, hp]
  · intro html data hf he hp
    simp [search_channels, hf, he, hp]
  · intro html data h hf he hp
    rcases hpair : get_cached_as decodeVideos now cache (channelKey env handle limit)
      with ⟨r, cache'⟩
    rw [hpair] at h
    simp only at h
    subst h
    simp [fetch_channel_videos, hpair, hf, he, hp]
  · intro msg hmsg
    cases hmsg
  · intro msg hmsg
    cases hmsg

/-- Environment fixture whose extraction yields a blob with no items. -/
def envEmptyPage : Env :=
  ⟨fun s => s, fun s => s, fun _ => .ok "page", fun _ => .ok Json.null,
   fun s => s⟩

theorem c3_empty_results_witness :
    (search_videos envEmptyPage 0 emptyCache "q" 5).result = .error .NoResults
    ∧ (search_channels envEmptyPage 0 emptyCache "q" 5).result = .error .NoResults
    ∧ (fetch_channel_videos envEmptyPage 0 emptyCache "@c" 5).result = .ok [] :=
  ⟨(c3_empty_results envEmptyPage 0 emptyCache "q" "@c" 5).1
      "page" Json.null rfl rfl rfl rfl,
   (c3_empty_results envEmptyPage 0 emptyCache "q" "@c" 5).2.1
      "page" Json.null rfl rfl rfl,
   (c3_empty_results envEmptyPage 0 emptyCache "q" "@c" 5).2.2.1
      "page" Json.null rfl rfl rfl rfl⟩

/-- Cache fixture for the C1 counterexample: every key holds a fresh,
valid entry, in particular whatever key one takes to be the channel
search's namespaced key. -/
def c1Cache : CacheStore :=
  fun _ => some ⟨.channels [⟨"Chan", "@c"⟩], 0, 3600⟩

/-- C1 counterexample: `search_channels` ignores the cache.  At time 0,
`c1Cache` holds a valid (age 0 ≤ ttl 3600) entry under the
spec-shaped namespaced key — indeed under every key — yet
`search_channels` still issues a network fetch, does not return the
cached channel list, and leaves the store exactly as it was (it never
writes back either). -/
theorem c1_counterexample :
    c1Cache "channel:lofi:5" = some ⟨.channels [⟨"Chan", "@c"⟩], 0, 3600⟩
    ∧ ((0 : Int) - 0 ≤ ((3600 : Nat) : Int))
    ∧ (search_channels envEmptyPage 0 c1Cache "lofi" 5).fetches = 1
    ∧ (search_channels envEmptyPage 0 c1Cache "lofi" 5).result ≠
        .ok [⟨"Chan", "@c"⟩]
    ∧ (search_channels envEmptyPage 0 c1Cache "lofi" 5).cache = c1Cache := by
  refine ⟨rfl, by decide, rfl, ?_, rfl⟩
  intro hco
  exact Except.noConfusion hco

/-- C1 as amended: `search_videos` and `fetch_channel_videos` check the
cache first under their hashed namespaced keys (`video:<query>:<limit>`,
`channel:<handle>:<limit>`): on a valid hit they return the cached list
with no network fetch and no store change, and on a miss a successful
non-empty result is written back under that key.  `search_channels`
performs no cache read or write: it always issues one network fetch and
returns the store unchanged. -/
theorem c1_cache_policy_amended (env : Env) (now : Int) (cache : CacheStore)
    (query handle : String) (limit : Nat) :
    (∀ vs,
      (get_cached_as decodeVideos now cache (videosKey env query limit)).1 = some vs →
      search_videos env now cache query limit = ⟨.ok vs, cache, 0⟩)
    ∧ (∀ html data,
      (get_cached_as decodeVideos now cache (videosKey env query limit)).1 = none →
      env.fetch (build_search_url env query "video") = .ok html →
      env.extract html = .ok data →
      parse_search_results env.decode data limit ≠ [] →
      (search_videos env now cache query limit).result =
        .ok (parse_search_results env.decode data limit)
      ∧ (search_videos env now cache query limit).cache (videosKey env query limit)
          = some ⟨.videos (parse_search_results env.decode data limit), now,
              DEFAULT_TTL⟩)
    ∧ (∀ vs,
      (get_cached_as decodeVideos now cache (channelKey env handle limit)).1 = some vs →
      fetch_channel_videos env now cache handle limit = ⟨.ok vs, cache, 0⟩)
    ∧ (∀ html data,
      (get_cached_as decodeVideos now cache (channelKey env handle limit)).1 = none →
      env.fetch (build_search_url env (handle ++ " ") "video") = .ok html →
      env.extract html = .ok data →
      parse_search_results env.decode data limit ≠ [] →
      (fetch_channel_videos env now cache handle limit).result =
        .ok (parse_search_results env.decode data limit)
      ∧ (fetch_channel_videos env now cache handle limit).cache
          (channelKey env handle limit)
          = some ⟨.videos (parse_search_results env.decode data limit), now,
              DEFAULT_TTL⟩)
    ∧ (search_channels env now cache query limit).cache = cache
    ∧ (search_channels env now cache query limit).fetches = 1 := by
  have hchan : (search_channels env now cache query limit).cache = cache
      ∧ (search_channels env now cache query limit).fetches = 1 := by
    rcases hf : env.fetch (build_search_url env query "channel") with e | html
    · simp [search_channels, hf]
    · rcases he : env.extract html with e | data
      · simp [search_channels, hf, he]
      · by_cases hp : (parse_channel_results env.decode data limit).isEmpty
        · simp [search_channels, hf, he, hp]
        · simp [search_channels, hf, he, hp]
  refine ⟨?_, ?_, ?_, ?_, hchan.1, hchan.2⟩
  · intro vs h
    have hpair := get_cached_as_eq_of_fst_some decodeVideos now cache
      (videosKey env query limit) vs h
    simp [search_videos, hpair]
  · intro html data h hf he hne
    rcases hpair : get_cached_as decodeVideos now cache (videosKey env query limit)
      with ⟨r, cache'⟩
    rw [hpair] at h
    simp only at h
    subst h
    have hemp : (parse_search_results env.decode data limit).isEmpty = false := by
      rcases hp : parse_search_results env.decode data limit with _ | ⟨v, vs⟩
      · exact absurd hp hne
      · rfl
    constructor
    · simp [search_videos, hpair, hf, he, hemp]
    · simp [search_videos, hpair, hf, he, hemp, set_cache]
  · intro vs h
    have hpair := get_cached_as_eq_of_fst_some decodeVideos now cache
      (channelKey env handle limit) vs h
    simp [fetch_channel_videos, hpair]
  · intro html data h hf he hne
    rcases hpair : get_cached_as decodeVideos now cache (channelKey env handle limit)
      with ⟨r, cache'⟩
    rw [hpair] at h
    simp only at h
    subst h
    have hemp : (parse_search_results env.decode data limit).isEmpty = false := by
      rcases hp : parse_search_results env.decode data limit with _ | ⟨v, vs⟩
      · exact absurd hp hne
      · rfl
    constructor
    · simp [fetch_channel_videos, hpair, hf, he, hemp]
    · simp [fetch_channel_videos, hpair, hf, he, hemp, set_cache]

/-- Cache fixture for the C1 witness: a valid entry of two videos under
the key `search_videos` computes for query "q" and limit 5 (the identity
hash of `video:q:5`). -/
def c1HitCache : CacheStore :=
  fun k => if k = "video:q:5" then some ⟨.videos [sampleVideo], 0, 3600⟩
    else none

theorem c1_cache_policy_amended_witness :
    search_videos envSample 0 c1HitCache "q" 5 = ⟨.ok [sampleVideo], c1HitCache, 0⟩
    ∧ (search_videos envSample 0 emptyCache "q" 5).cache "video:q:5"
        = some ⟨.videos [sampleVideo], 0, DEFAULT_TTL⟩
    ∧ (fetch_channel_videos envSample 0 emptyCache "@c" 5).cache "channel:@c:5"
        = some ⟨.videos [sampleVideo], 0, DEFAULT_TTL⟩ :=
  ⟨(c1_cache_policy_amended envSample 0 c1HitCache "q" "@c" 5).1
      [sampleVideo] (by decide),
   ((c1_cache_policy_amended envSample 0 emptyCache "q" "@c" 5).2.1
      "page" sampleData rfl rfl rfl (by decide)).2,
   ((c1_cache_policy_amended envSample 0 emptyCache "q" "@c" 5).2.2.2.1
      "page" sampleData rfl rfl rfl (by decide)).2⟩

/-! ## Theorems: subscription file round-trip (claim C10) -/

/-- C10 counterexample: a handle ending in a carriage return is not
restored by the round trip when another entry follows it — the saved
line ends `...\r\n`, and `str::lines()` strips the `\r` together with
the `\n` — so the loaded handle is `"h"` instead of `"h\r"`. -/
theorem c10_counterexample :
    load_subscriptions (save_subscriptions [⟨"a", "h\r"⟩, ⟨"b", "k"⟩]) ≠
      [⟨"a", "h\r"⟩, ⟨"b", "k"⟩] := by
  decide

theorem splitOnChar_of_not_mem {c : Char} {l : List Char} (h : c ∉ l) :
    splitOnChar c l = [l] := by
  induction l with
  | nil => rfl
  | cons x xs ih =>
    simp only [List.mem_cons, not_or] at h
    simp only [splitOnChar]
    rw [if_neg (fun hh => h.1 hh.symm), ih h.2]

theorem splitOnChar_append {c : Char} {r : List Char} :
    ∀ {l : List Char}, c ∉ l →
    splitOnChar c (l ++ c :: r) = l :: splitOnChar c r := by
  intro l
  induction l with
  | nil =>
    intro _
    show splitOnChar c (c :: r) = [] :: splitOnChar c r
    simp [splitOnChar]
  | cons x xs ih =>
    intro h
    simp only [List.mem_cons, not_or] at h
    show splitOnChar c (x :: (xs ++ c :: r)) = (x :: xs) :: splitOnChar c r
    simp only [splitOnChar]
    rw [if_neg (fun hh => h.1 hh.symm), ih h.2]

/-- Joining newline-free lines and splitting on newlines is the
identity. -/
theorem splitOnChar_joinNL :
    ∀ (ls : List (List Char)), ls ≠ [] → (∀ l ∈ ls, '\n' ∉ l) →
    splitOnChar '\n' (joinNL ls) = ls := by
  intro ls
  induction ls with
  | nil => intro hne _; exact absurd rfl hne
  | cons l ls ih =>
    intro _ hnl
    cases ls with
    | nil => exact splitOnChar_of_not_mem (hnl l (by simp))
    | cons l2 ls2 =>
      rw [show joinNL (l :: l2 :: ls2) = l ++ '\n' :: joinNL (l2 :: ls2) from rfl]
      rw [splitOnChar_append (hnl l (by simp))]
      rw [ih (by simp) (fun x hx => hnl x (List.mem_cons_of_mem _ hx))]

theorem stripCR_eq_self {l : List Char} (h : l.getLast? ≠ some '\r') :
    stripCR l = l := by
  simp only [stripCR]
  rw [if_neg h]

/-- Reassembling `str::lines()` after a join of well-formed lines:
all lines newline-free, non-empty, and not ending in a carriage
return. -/
theorem rustLines_joinNL (ls : List (List Char)) (hne : ls ≠ [])
    (hnl : ∀ l ∈ ls, '\n' ∉ l) (hnn : ∀ l ∈ ls, l ≠ [])
    (hcr : ∀ l ∈ ls, l.getLast? ≠ some '\r') :
    rustLines (joinNL ls) = ls := by
  have hsplit := splitOnChar_joinNL ls hne hnl
  simp only [rustLines, hsplit]
  rcases hr : ls.reverse with _ | ⟨last, revInit⟩
  · exact absurd (by simpa using congrArg List.reverse hr) hne
  · have hls : ls = revInit.reverse ++ [last] := by
      have h2 := congrArg List.reverse hr
      rw [List.reverse_reverse, List.reverse_cons] at h2
      exact h2
    have hlastmem : last ∈ ls := by rw [hls]; simp
    simp only []
    rw [if_neg (hnn last hlastmem)]
    have hmap : revInit.reverse.map stripCR = revInit.reverse := by
      rw [List.map_congr_left (fun l hl =>
        stripCR_eq_self (hcr l (by rw [hls]; exact List.mem_append.mpr (.inl hl))))]
      exact List.map_id _
    rw [hmap, ← hls]

theorem takeWhile_dropWhile_sep {p : Char → Bool} :
    ∀ (n : List Char) (x : Char) (r : List Char),
    (∀ c ∈ n, p c = true) → p x = false →
    (n ++ x :: r).takeWhile p = n ∧ (n ++ x :: r).dropWhile p = x :: r := by
  intro n
  induction n with
  | nil =>
    intro x r _ hx
    constructor
    · simp [List.takeWhile_cons, hx]
    · simp [List.dropWhile_cons, hx]
  | cons c n ih =>
    intro x r hall hx
    have hc := hall c (by simp)
    have htail := ih x r (fun d hd => hall d (List.mem_cons_of_mem _ hd)) hx
    constructor
    · simp only [List.cons_append, List.takeWhile_cons, hc, if_true]
      rw [htail.1]
    · simp only [List.cons_append, List.dropWhile_cons, hc, if_true]
      exact htail.2

/-- Behaviour of `splitn(2, '\t')` on a line assembled from a tab-free name. -/
theorem splitTab_sep {n hd : List Char} (hn : '\t' ∉ n) :
    splitTab (n ++ '\t' :: hd) = [n, hd] := by
  have hall : ∀ c ∈ n, (c != '\t') = true := by
    intro c hc
    simp only [bne_iff_ne, ne_eq]
    exact fun e => hn (e ▸ hc)
  have hx : (('\t' : Char) != '\t') = false := by simp
  have hsep := takeWhile_dropWhile_sep n '\t' hd hall hx
  simp only [splitTab, hsep.1, hsep.2]

theorem filterMap_eq_self_of {α : Type} {g : α → Option α} :
    ∀ (l : List α), (∀ x ∈ l, g x = some x) → l.filterMap g = l := by
  intro l
  induction l with
  | nil => intro _; rfl
  | cons x xs ih =>
    intro h
    have hx := h x (by simp)
    have hxs := ih (fun y hy => h y (List.mem_cons_of_mem _ hy))
    simp [List.filterMap_cons, hx, hxs]

/-- C10 as amended: saving then loading restores the subscription list
exactly, in order, provided no name or handle contains a tab or a
newline and additionally no handle ends with a carriage-return
character (which `str::lines()` would strip together with the `\n` that
follows it). -/
theorem c10_roundtrip_amended (subs : List Subscription)
    (h : ∀ s ∈ subs,
      '\t' ∉ s.name.data ∧ '\n' ∉ s.name.data ∧
      '\t' ∉ s.handle.data ∧ '\n' ∉ s.handle.data ∧
      s.handle.data.getLast? ≠ some '\r') :
    load_subscriptions (save_subscriptions subs) = subs := by
  by_cases hnil : subs = []
  · subst hnil; rfl
  · have hlines : rustLines (joinNL (subs.map
        (fun s => s.name.data ++ '\t' :: s.handle.data)))
        = subs.map (fun s => s.name.data ++ '\t' :: s.handle.data) := by
      apply rustLines_joinNL
      · simp [hnil]
      · intro l hl
        obtain ⟨t, ht, hteq⟩ := List.mem_map.mp hl
        subst hteq
        intro hmem
        rcases List.mem_append.mp hmem with h1 | h1
        · exact (h t ht).2.1 h1
        · rcases List.mem_cons.mp h1 with h2 | h2
          · exact absurd h2 (by decide)
          · exact (h t ht).2.2.2.1 h2
      · intro l hl
        obtain ⟨t, ht, hteq⟩ := List.mem_map.mp hl
        subst hteq
        simp
      · intro l hl
        obtain ⟨t, ht, hteq⟩ := List.mem_map.mp hl
        subst hteq
        rcases hh : t.handle.data with _ | ⟨c, cs⟩
        · rw [List.getLast?_concat]
          decide
        · rw [show ('\t' :: c :: cs) = ['\t'] ++ c :: cs from rfl,
            ← List.append_assoc,
            List.getLast?_append_of_ne_nil _ (List.cons_ne_nil c cs)]
          rw [← hh]
          exact (h t ht).2.2.2.2
    simp only [load_subscriptions, save_subscriptions, hlines,
      List.filterMap_map]
    apply filterMap_eq_self_of
    intro t ht
    simp only [Function.comp_apply]
    rw [splitTab_sep (h t ht).1]

theorem c10_roundtrip_amended_witness :
    load_subscriptions (save_subscriptions [⟨"a", "@h"⟩, ⟨"b", "@k"⟩]) =
      [⟨"a", "@h"⟩, ⟨"b", "@k"⟩] :=
  c10_roundtrip_amended [⟨"a", "@h"⟩, ⟨"b", "@k"⟩] (by decide)

end YtChill
